import Mathlib

/-!
# Market Data Acquisition & Caching Engine — verification development

Shallow embedding of the acquisition/caching core of the stock-analyzer
application, translated from:

* `app/services/historical_data_service.py` (`HistoricalDataService`)
* `app/services/alternative_data_sources.py` (`FallbackDataService` and the
  provider adapters)
* `app/services/cache_service.py` (`CacheService`)
* `app/services/data_scheduler.py` (`DataSchedulerService`)
* `app/models/historical_price.py` (`HistoricalPrice`, `DataCollectionMetadata`)

Modelling conventions:

* Calendar dates are integers (day numbers); a `datetime.now()` reading is an
  `Instant` carrying the observations the code extracts from it (epoch
  seconds, calendar day, weekday with Monday = 0, hour, minute).
* Python floats are modelled as exact rationals (`ℚ`).
* Database tables are lists of rows; SQLAlchemy's mutate-row-then-commit is
  explicit state passing.  The `created_at`/`updated_at` audit timestamps of
  the rows are not modelled (no claim refers to them).
* Outbound HTTP calls are oracles: an `Option` holding the parsed provider
  response, with `none` standing for any failure the adapter catches
  (missing API key, network error, rate limit, empty/unparseable payload) —
  each adapter converts all of those to `None` at its boundary.
* Python truthiness on lists (`if not data`) is an explicit emptiness check.
-/

/-- One trading day of one symbol, a row of the `historical_prices` table
(`HistoricalPrice` in `app/models/historical_price.py`).  OHLCV columns are
nullable and are therefore `Option`; `source` records provenance. -/
structure HistoricalPrice where
  ticker : String
  date : ℤ
  «open» : Option ℚ
  high : Option ℚ
  low : Option ℚ
  close : Option ℚ
  volume : Option ℤ
  source : String
  deriving DecidableEq

/-- One incoming data point as produced by a provider adapter (a Python dict
with a `date` key and optional OHLCV keys; a missing key is `none`). -/
structure PricePoint where
  date : ℤ
  «open» : Option ℚ
  high : Option ℚ
  low : Option ℚ
  close : Option ℚ
  volume : Option ℤ
  deriving DecidableEq

/-- A row of the `data_collection_metadata` table (`DataCollectionMetadata`
in `app/models/historical_price.py`), with the column defaults of the model
(`consecutive_failures=0`, `priority=0`, `is_active=True`,
`data_points_count=0`). -/
structure DataCollectionMetadata where
  ticker : String
  last_collected_at : Option ℤ := none
  last_successful_collection : Option ℤ := none
  earliest_date : Option ℤ := none
  latest_date : Option ℤ := none
  data_points_count : ℕ := 0
  collection_status : Option String := none
  error_message : Option String := none
  consecutive_failures : ℕ := 0
  priority : ℤ := 0
  is_active : Bool := true
  deriving DecidableEq

/-- One `datetime.now()` reading, carrying exactly the observations the code
extracts from it: epoch seconds (for age arithmetic), the calendar day
(`.date()`), and weekday (Monday = 0) / hour / minute (for market hours). -/
structure Instant where
  epochSec : ℤ
  today : ℤ
  weekday : ℕ
  hour : ℕ
  minute : ℕ
  deriving DecidableEq

/-- The structured result dictionary returned by
`HistoricalDataService.get_historical_data` (the `last_updated` timestamp
field is not modelled). -/
structure HistResult where
  ticker : String
  period : String
  data : List HistoricalPrice
  source : String
  warning : Option String := none
  error : Option String := none
  deriving DecidableEq

/-- `HistoricalDataService._calculate_start_date`'s day-count table
(`period_days`). -/
def period_days : List (String × ℤ) :=
  [("1d", 1), ("5d", 5), ("1mo", 30), ("3mo", 90),
   ("6mo", 180), ("1y", 365), ("2y", 730), ("5y", 1825),
   ("max", 7300)]

/-- `HistoricalDataService._calculate_start_date`: start date from period,
`period_days.get(period, 30)` days before the end date. -/
def _calculate_start_date (period : String) (end_date : ℤ) : ℤ :=
  end_date - (period_days.lookup period).getD 30

/-- `HistoricalDataService._is_market_hours`: weekday Mon–Fri and hour field
between 14 and 21 inclusive (the code compares only `now.hour`). -/
def _is_market_hours (now : Instant) : Bool :=
  if now.weekday > 4 then false
  else decide (14 ≤ now.hour ∧ now.hour ≤ 21)

/-- `HistoricalDataService._is_data_fresh`: freshness of the cached data for
a ticker, from the age of `last_successful_collection` and the width of the
requested range. -/
def _is_data_fresh (metas : List DataCollectionMetadata) (ticker : String)
    (start_date end_date : ℤ) (now : Instant) : Bool :=
  match metas.find? (fun m => m.ticker == ticker) with
  | none => false
  | some metadata =>
    match metadata.last_successful_collection with
    | none => false
    | some t =>
      let data_age : ℤ := now.epochSec - t
      let days_range : ℤ := end_date - start_date
      if days_range ≤ 5 then
        if _is_market_hours now then decide (data_age < 1800)
        else decide (data_age < 3600)
      else if days_range ≤ 30 then decide (data_age < 86400)
      else decide (data_age < 604800)

/-- Insertion step for sorting price rows by date descending (models the SQL
`ORDER BY date DESC` of the read queries). -/
def insertDateDesc (r : HistoricalPrice) : List HistoricalPrice → List HistoricalPrice
  | [] => [r]
  | x :: xs => if r.date ≤ x.date then x :: insertDateDesc r xs else r :: x :: xs

/-- Sort price rows by date descending (models `ORDER BY date DESC`). -/
def sortDateDesc : List HistoricalPrice → List HistoricalPrice
  | [] => []
  | x :: xs => insertDateDesc x (sortDateDesc xs)

/-- `HistoricalDataService._get_from_database`: rows of the ticker within
`[start_date, end_date]`, ordered by date descending. -/
def _get_from_database (db : List HistoricalPrice) (ticker : String)
    (start_date end_date : ℤ) : List HistoricalPrice :=
  sortDateDesc (db.filter (fun r =>
    r.ticker == ticker && decide (start_date ≤ r.date) && decide (r.date ≤ end_date)))

/-- `HistoricalDataService._get_any_available_data`: up to 365 rows of the
ticker regardless of date, newest first. -/
def _get_any_available_data (db : List HistoricalPrice) (ticker : String) :
    List HistoricalPrice :=
  (sortDateDesc (db.filter (fun r => r.ticker == ticker))).take 365

/-- The per-point update of an existing row inside `_store_data`'s loop:
each OHLCV field is overwritten when the incoming point carries it
(`point.get(field, existing.field)`), and `source` is refreshed. -/
def applyPoint (source : String) (p : PricePoint) (r : HistoricalPrice) :
    HistoricalPrice :=
  { r with
    «open» := p.«open».orElse (fun _ => r.«open»)
    high := p.high.orElse (fun _ => r.high)
    low := p.low.orElse (fun _ => r.low)
    close := p.close.orElse (fun _ => r.close)
    volume := p.volume.orElse (fun _ => r.volume)
    source := source }

/-- The cumulative effect of `_store_data`'s loop on one existing row: every
incoming point whose date matches the row is applied in batch order. -/
def updRow (source : String) (ps : List PricePoint) (r : HistoricalPrice) :
    HistoricalPrice :=
  ps.foldl (fun r p => if p.date = r.date then applyPoint source p r else r) r

/-- The new row staged for batch insert by `_store_data` for a point whose
date is not yet stored. -/
def mkRow (ticker source : String) (p : PricePoint) : HistoricalPrice :=
  { ticker := ticker, date := p.date, «open» := p.«open», high := p.high,
    low := p.low, close := p.close, volume := p.volume, source := source }

/-- The batch cap inside `_store_data`: batches longer than 500 points are
cut to `data[:500]`. -/
def cappedOf (data : List PricePoint) : List PricePoint :=
  if data.length > 500 then data.take 500 else data

/-- `HistoricalDataService._store_data`: upsert of an incoming batch.
Mirrors the source: empty batches are rejected; batches longer than 500
points are cut to `data[:500]` (`cappedOf`); the existing dates of the
ticker are read once; points on existing dates update the row in place, the
rest are staged for one batch insert.  A duplicate date among the staged
inserts violates the `(ticker, date)` unique constraint at commit time
(`IntegrityError`), which the code catches with a rollback and `False` —
modelled by returning the unchanged table.  Returns the new table and the
success flag (`total_stored > 0`, else `False`). -/
def _store_data (ticker : String) (data : List PricePoint) (source : String)
    (db : List HistoricalPrice) : List HistoricalPrice × Bool :=
  if data.isEmpty then (db, false)
  else
    let capped := cappedOf data
    let existing_dates := (db.filter (fun r => r.ticker == ticker)).map (·.date)
    let new_points := capped.filter (fun p => !existing_dates.contains p.date)
    if ((new_points.map (·.date)).Nodup : Prop) then
      let db1 := db.map (fun r =>
        if r.ticker = ticker then updRow source capped r else r)
      let new_records := new_points.map (mkRow ticker source)
      (db1 ++ new_records, true)
    else
      (db, false)

/-- The defaults of a freshly constructed `DataCollectionMetadata(ticker=t)`
row. -/
def newMetadata (ticker : String) : DataCollectionMetadata := { ticker := ticker }

/-- The mutation `_update_metadata` applies to the (found or freshly
created) metadata row of the ticker. -/
def updateMetaRow (m : DataCollectionMetadata) (success : Bool)
    (error : Option String) (now : ℤ) (db : List HistoricalPrice) :
    DataCollectionMetadata :=
  let m1 := { m with last_collected_at := some now }
  if success then
    let base := { m1 with
      last_successful_collection := some now
      collection_status := some "success"
      consecutive_failures := 0
      error_message := none }
    let prices := db.filter (fun r => r.ticker == m.ticker)
    match prices.map (·.date) with
    | [] => base
    | d :: ds =>
      { base with
        data_points_count := prices.length
        earliest_date := some (ds.foldl min d)
        latest_date := some (ds.foldl max d) }
  else
    { m1 with
      collection_status := some "failed"
      consecutive_failures := m1.consecutive_failures + 1
      error_message := error }

/-- `HistoricalDataService._update_metadata`: find (or create) the metadata
row of the ticker and record the attempt.  On success the failure counter
resets and the date range is recomputed from the stored prices; on failure
the counter increments and the error message is recorded.  The failure
branch does not touch `is_active`. -/
def _update_metadata (metas : List DataCollectionMetadata) (ticker : String)
    (success : Bool) (error : Option String) (now : ℤ)
    (db : List HistoricalPrice) : List DataCollectionMetadata :=
  match metas.find? (fun m => m.ticker == ticker) with
  | some m =>
    metas.map (fun x => if x.ticker == ticker then updateMetaRow m success error now db else x)
  | none =>
    metas ++ [updateMetaRow (newMetadata ticker) success error now db]

/-- `HistoricalDataService._fetch_from_twelve_data`: the adapter result
oracle (`TwelveDataService.get_time_series`) filtered through the code's
truthiness check `if data_response and data_response.get('data')`. -/
def _fetch_from_twelve_data (oTD : Option (List PricePoint)) :
    Option (List PricePoint) :=
  match oTD with
  | some l => if l.isEmpty then none else some l
  | none => none

/-- `HistoricalDataService._fetch_from_alpha_vantage`: as above for
`AlphaVantageService.get_time_series_daily`, plus the adapter's own cap
`data_response['data'][:500]`. -/
def _fetch_from_alpha_vantage (oAV : Option (List PricePoint)) :
    Option (List PricePoint) :=
  match oAV with
  | some l => if l.isEmpty then none else some (l.take 500)
  | none => none

/-- `HistoricalDataService._fetch_from_fallback`: as above for
`FallbackDataService.get_historical_data`. -/
def _fetch_from_fallback (oFB : Option (List PricePoint)) :
    Option (List PricePoint) :=
  match oFB with
  | some l => if l.isEmpty then none else some l
  | none => none

/-- Third step of `_collect_and_store`'s selection chain (`if not data:`,
try the fallback service). -/
def collectSelect3 (f3 : Option (List PricePoint)) :
    Option (List PricePoint × String) :=
  match f3 with
  | some l => if l.isEmpty then none else some (l, "fallback")
  | none => none

/-- Second step of `_collect_and_store`'s selection chain (`if not data:`,
try Alpha Vantage). -/
def collectSelect2 (f2 f3 : Option (List PricePoint)) :
    Option (List PricePoint × String) :=
  match f2 with
  | some l => if l.isEmpty then collectSelect3 f3 else some (l, "alpha_vantage")
  | none => collectSelect3 f3

/-- The provider-selection chain of `_collect_and_store`: try Twelve Data,
then Alpha Vantage, then the fallback service; `if not data:` advances to
the next provider, and the chosen data is tagged with the provider's source
name. -/
def collectSelect (f1 f2 f3 : Option (List PricePoint)) :
    Option (List PricePoint × String) :=
  match f1 with
  | some l => if l.isEmpty then collectSelect2 f2 f3 else some (l, "twelve_data")
  | none => collectSelect2 f2 f3

/-- `HistoricalDataService._collect_and_store`: run the selection chain over
the three fetchers; on data, store it and record metadata with the store's
success flag; with no data from any source, record the failure.  Returns
the new price table, the new metadata table and the success flag. -/
def _collect_and_store (oTD oAV oFB : Option (List PricePoint))
    (ticker : String) (db : List HistoricalPrice)
    (metas : List DataCollectionMetadata) (now : ℤ) :
    List HistoricalPrice × List DataCollectionMetadata × Bool :=
  match collectSelect (_fetch_from_twelve_data oTD)
      (_fetch_from_alpha_vantage oAV) (_fetch_from_fallback oFB) with
  | some (data, source) =>
    let res := _store_data ticker data source db
    (res.1, _update_metadata metas ticker res.2 none now res.1, res.2)
  | none =>
    (db, _update_metadata metas ticker false (some "No data from any source") now db, false)

/-- Python's `str.upper()` (`ticker.upper()` in the source), modelled over
the character list so that concrete instances evaluate. -/
def pyUpper (s : String) : String := ⟨s.data.map Char.toUpper⟩

/-- The outcome of one `get_historical_data` call: the structured result,
the two tables after the call, and whether the acquisition path
(`_collect_and_store`) ran. -/
structure GetOutcome where
  result : HistResult
  db : List HistoricalPrice
  metas : List DataCollectionMetadata
  collect_ran : Bool
  deriving DecidableEq

/-- The degradation tail of `get_historical_data` ("if all else fails"):
whatever is in range tagged `stale_cache`; else any stored rows of the
ticker tagged `any_cache` with a warning; else an empty result tagged
`none` with an error. -/
def histStaleTail (db : List HistoricalPrice) (metas : List DataCollectionMetadata)
    (ticker period : String) (start_date end_date : ℤ) : GetOutcome :=
  let local_data := _get_from_database db ticker start_date end_date
  if !local_data.isEmpty then
    ⟨{ ticker := ticker, period := period, data := local_data,
       source := "stale_cache" }, db, metas, true⟩
  else
    let any_data := _get_any_available_data db ticker
    if !any_data.isEmpty then
      ⟨{ ticker := ticker, period := period, data := any_data,
         source := "any_cache",
         warning := some "Data is from a different time period due to API limitations" },
       db, metas, true⟩
    else
      ⟨{ ticker := ticker, period := period, data := [], source := "none",
         error := some "No historical data available" }, db, metas, true⟩

/-- The acquisition path of `get_historical_data`: run `_collect_and_store`;
on success re-read the range and return it tagged `freshly_fetched`;
otherwise fall through to the degradation tail. -/
def histFetchPath (db : List HistoricalPrice) (metas : List DataCollectionMetadata)
    (oTD oAV oFB : Option (List PricePoint)) (ticker period : String)
    (start_date end_date : ℤ) (now : Instant) : GetOutcome :=
  let res := _collect_and_store oTD oAV oFB ticker db metas now.epochSec
  let db' := res.1
  let metas' := res.2.1
  if res.2.2 then
    let local_data := _get_from_database db' ticker start_date end_date
    if !local_data.isEmpty then
      ⟨{ ticker := ticker, period := period, data := local_data,
         source := "freshly_fetched" }, db', metas', true⟩
    else histStaleTail db' metas' ticker period start_date end_date
  else histStaleTail db' metas' ticker period start_date end_date

/-- `HistoricalDataService.get_historical_data`: the public Store API.
Unless `force_update`, read the range from the local table and return it
tagged `local_cache` when it is fresh (`_is_data_fresh`) and covers more
than half of the expected trading days
(`len(local_data) / max(days_expected * 0.7, 1) > 0.5`); otherwise fetch
via the provider cascade and degrade as in `histStaleTail`.  Total by
construction, mirroring the top-level `try/except` of the source (which
converts even unexpected exceptions into a structured `source='error'`
result rather than raising). -/
def get_historical_data (db : List HistoricalPrice)
    (metas : List DataCollectionMetadata)
    (oTD oAV oFB : Option (List PricePoint)) (ticker period : String)
    (force_update : Bool) (now : Instant) : GetOutcome :=
  let T := pyUpper ticker
  let end_date := now.today
  let start_date := _calculate_start_date period end_date
  if force_update then histFetchPath db metas oTD oAV oFB T period start_date end_date now
  else
    let local_data := _get_from_database db T start_date end_date
    let days_expected := end_date - start_date
    if local_data.isEmpty then
      histFetchPath db metas oTD oAV oFB T period start_date end_date now
    else
      let is_fresh := _is_data_fresh metas T start_date end_date now
      let data_coverage : ℚ :=
        (local_data.length : ℚ) / max ((days_expected : ℚ) * (7 / 10)) 1
      if is_fresh = true ∧ data_coverage > 1 / 2 then
        ⟨{ ticker := T, period := period, data := local_data,
           source := "local_cache" }, db, metas, false⟩
      else histFetchPath db metas oTD oAV oFB T period start_date end_date now

/-- The condition under which `DataSchedulerService.update_all_active_tickers`
deactivates a ticker inside its per-ticker exception handler
(`if metadata.consecutive_failures > 5`). -/
def sweepDeactivates (m : DataCollectionMetadata) : Bool :=
  decide (5 < m.consecutive_failures)

/-- The ticker set the daily sweep iterates:
`DataCollectionMetadata.query.filter_by(is_active=True)`. -/
def sweepActiveRows (metas : List DataCollectionMetadata) :
    List DataCollectionMetadata :=
  metas.filter (fun m => m.is_active)

/-- `CacheService.TTL_LIVE_QUOTE`. -/
def TTL_LIVE_QUOTE : ℕ := 300

/-- `CacheService.TTL_HISTORICAL`. -/
def TTL_HISTORICAL : ℕ := 3600

/-- `CacheService.TTL_FUNDAMENTALS`. -/
def TTL_FUNDAMENTALS : ℕ := 86400

/-- `CacheService.TTL_AI_ANALYSIS` (the ai-analysis data class; the
`ttl_map` key in the source is `'ai'`). -/
def TTL_AI_ANALYSIS : ℕ := 604800

/-- `CacheService.TTL_NEWS`. -/
def TTL_NEWS : ℕ := 1800

/-- The `ttl_map` of `CacheService.set`. -/
def ttl_map : List (String × ℕ) :=
  [("quote", TTL_LIVE_QUOTE), ("historical", TTL_HISTORICAL),
   ("fundamentals", TTL_FUNDAMENTALS), ("ai", TTL_AI_ANALYSIS),
   ("news", TTL_NEWS)]

/-- TTL selection of `CacheService.set`: `ttl_map.get(ttl_level,
TTL_LIVE_QUOTE)`. -/
def ttlFor (ttl_level : String) : ℕ :=
  (ttl_map.lookup ttl_level).getD TTL_LIVE_QUOTE

/-- Overwrite-or-add on an association list (Redis `setex` / Python dict
assignment both overwrite the key). -/
def insertAL (l : List (String × β)) (k : String) (v : β) : List (String × β) :=
  (k, v) :: l.filter (fun e => e.1 ≠ k)

/-- The state of a `CacheService` instance: the shared Redis tier when the
connection exists (entries carry their TTL), and the in-process
`memory_cache` map (entries carry their absolute expiry). -/
structure CacheState (α : Type) where
  redis : Option (List (String × α × ℕ))
  memory : List (String × α × ℤ)

/-- `CacheService.set`: pick the TTL for the data class, write the entry to
the Redis tier when the client exists, and write `(data, now + ttl)` to the
in-process tier unconditionally.  (A failing Redis `setex` is caught and
logged in the source; the model covers the successful write path.) -/
def cacheSet (st : CacheState α) (key : String) (data : α)
    (ttl_level : String) (now : ℤ) : CacheState α :=
  let ttl := ttlFor ttl_level
  { redis := st.redis.map (fun r => insertAL r key (data, ttl)),
    memory := insertAL st.memory key (data, (now + ttl : ℤ)) }

/-- A canonical quote record as returned by the provider adapters'
`get_stock_quote` (only the fields the claims need). -/
structure Quote where
  ticker : String
  current_price : ℚ
  source : String
  deriving DecidableEq

/-- `FallbackDataService.get_stock_quote`: iterate `SOURCES` (Twelve Data,
Finnhub, Alpha Vantage), return the first adapter result; with every
adapter failing, return `None` — deliberately no estimation fallback for
quote polling. -/
def fallback_get_stock_quote (qTD qFH qAV : Option Quote) : Option Quote :=
  match qTD with
  | some d => some d
  | none =>
    match qFH with
    | some d => some d
    | none =>
      match qAV with
      | some d => some d
      | none => none

/-- A provider response for a historical series (`{ticker, data, source}`). -/
structure HistResp where
  ticker : String
  data : List PricePoint
  source : String
  deriving DecidableEq

/-- `FallbackDataService.get_historical_data`: Twelve Data when its key is
configured, then Alpha Vantage (sliced to the last `outputsize` points when
longer), Finnhub skipped (no time-series endpoint), and as ultimate
fallback the estimation provider: when the AI returns data, the result is
tagged `source='AI_FALLBACK'`; otherwise `None`.  `keyTD`/`keyAV`/`keyFH`
are the configured-API-key flags; `oTD`/`oAV` the adapter response oracles;
`ai` the estimation-provider oracle (`ai_data['data']`). -/
def fallback_get_historical_data (keyTD keyAV keyFH : Bool)
    (oTD oAV : Option HistResp) (ai : Option (List PricePoint))
    (ticker : String) (outputsize : ℕ) : Option HistResp :=
  match (if keyTD then oTD else none) with
  | some d => some d
  | none =>
    match (if keyAV then oAV else none) with
    | some d =>
      some { d with data := if d.data.length > outputsize then
               d.data.drop (d.data.length - outputsize) else d.data }
    | none =>
      -- Finnhub branch: logged and skipped, no data produced
      match ai with
      | some l =>
        if l.isEmpty then none
        else some { ticker := pyUpper ticker, data := l, source := "AI_FALLBACK" }
      | none => none

/-- Spec-side orchestration: "iterate a statically ordered provider list …
stop at the first provider that returns data and tag the result with that
provider's source name".  Stated as recursion over the ordered list, to be
compared with the source's hand-rolled chain `collectSelect`. -/
def specFirstProvider :
    List (Option (List PricePoint) × String) → Option (List PricePoint × String)
  | [] => none
  | (some l, name) :: rest =>
    if l.isEmpty then specFirstProvider rest else some (l, name)
  | (none, _) :: rest => specFirstProvider rest

/-- Market hours exactly as the claim words them: Mon–Fri, UTC 14:00–21:00
(time of day between 840 and 1260 minutes inclusive). -/
def claimMarketHours (now : Instant) : Bool :=
  decide (now.weekday ≤ 4 ∧
    14 * 60 ≤ now.hour * 60 + now.minute ∧ now.hour * 60 + now.minute ≤ 21 * 60)

/-- Freshness exactly as the claim words it: the thresholds of
`_is_data_fresh` with the market-hours window taken literally as UTC
14:00–21:00. -/
def claim_is_fresh (metas : List DataCollectionMetadata) (ticker : String)
    (start_date end_date : ℤ) (now : Instant) : Bool :=
  match metas.find? (fun m => m.ticker == ticker) with
  | none => false
  | some metadata =>
    match metadata.last_successful_collection with
    | none => false
    | some t =>
      let data_age : ℤ := now.epochSec - t
      let days_range : ℤ := end_date - start_date
      if days_range ≤ 5 then
        if claimMarketHours now then decide (data_age < 1800)
        else decide (data_age < 3600)
      else if days_range ≤ 30 then decide (data_age < 86400)
      else decide (data_age < 604800)

/-- The freshness threshold table (seconds), indexed by range width and the
market-hours flag: 30 min / 60 min for ranges of at most 5 days, 24 h for
at most 30 days, 7 days beyond. -/
def freshThreshold (days_range : ℤ) (marketHours : Bool) : ℤ :=
  if days_range ≤ 5 then (if marketHours then 1800 else 3600)
  else if days_range ≤ 30 then 86400
  else 604800

/-- The amended freshness spec: the claim's thresholds with the market-hours
window as the code has it — Mon–Fri with the hour field between 14 and 21
inclusive (14:00–21:59).  Phrased as a deadline comparison against the
threshold table, to be proved equal to `_is_data_fresh`. -/
def amended_is_fresh (metas : List DataCollectionMetadata) (ticker : String)
    (start_date end_date : ℤ) (now : Instant) : Bool :=
  match metas.find? (fun m => m.ticker == ticker) with
  | none => false
  | some metadata =>
    match metadata.last_successful_collection with
    | none => false
    | some t =>
      let mh := decide (now.weekday ≤ 4 ∧ 14 ≤ now.hour ∧ now.hour ≤ 21)
      decide (now.epochSec < t + freshThreshold (end_date - start_date) mh)

/- ### C10 — unrecognized periods fall back to 30 days -/

/-- **C10.** For every period string outside the fixed table
`{1d, 5d, 1mo, 3mo, 6mo, 1y, 2y, 5y, max}`, `_calculate_start_date`
silently computes the start date as the end date minus 30 days: an
unrecognized period is treated as `1mo` rather than rejected. -/
theorem c10_unknown_period_defaults_to_30_days (p : String) (end_date : ℤ)
    (h : p ∉ ["1d", "5d", "1mo", "3mo", "6mo", "1y", "2y", "5y", "max"]) :
    _calculate_start_date p end_date = end_date - 30 := by
  simp only [List.mem_cons, not_or] at h
  obtain ⟨h1, h2, h3, h4, h5, h6, h7, h8, h9, -⟩ := h
  simp [_calculate_start_date, period_days, List.lookup,
    beq_eq_false_iff_ne.mpr h1, beq_eq_false_iff_ne.mpr h2,
    beq_eq_false_iff_ne.mpr h3, beq_eq_false_iff_ne.mpr h4,
    beq_eq_false_iff_ne.mpr h5, beq_eq_false_iff_ne.mpr h6,
    beq_eq_false_iff_ne.mpr h7, beq_eq_false_iff_ne.mpr h8,
    beq_eq_false_iff_ne.mpr h9]

/-- Witness for C10 at the concrete unrecognized period `"2w"`. -/
theorem c10_witness : _calculate_start_date "2w" 100 = 100 - 30 :=
  c10_unknown_period_defaults_to_30_days "2w" 100 (by decide)

/- ### C9 — cache TTL table and dual-tier writes -/

/-- **C9.** The cache assigns TTLs by data class exactly as the table
quote=300, historical=3600, fundamentals=86400, ai-analysis=604800,
news=1800 seconds (the ai-analysis class is keyed `'ai'` in the source's
`ttl_map`), and every `set` writes the entry to both the shared Redis tier
(when the client is present) and the in-process tier unconditionally. -/
theorem c9_ttl_table_and_dual_tier_set :
    ttlFor "quote" = 300 ∧ ttlFor "historical" = 3600 ∧
    ttlFor "fundamentals" = 86400 ∧ ttlFor "ai" = 604800 ∧
    ttlFor "news" = 1800 ∧
    ∀ (α : Type) (st : CacheState α) (key : String) (data : α)
      (ttl_level : String) (now : ℤ),
      (List.lookup key (cacheSet st key data ttl_level now).memory =
        some (data, now + (ttlFor ttl_level : ℤ))) ∧
      ∀ r, st.redis = some r →
        (cacheSet st key data ttl_level now).redis =
          some (insertAL r key (data, ttlFor ttl_level)) := by
  refine ⟨rfl, rfl, rfl, rfl, rfl, fun α st key data ttl_level now => ⟨?_, ?_⟩⟩
  · simp [cacheSet, insertAL, List.lookup]
  · intro r hr
    simp [cacheSet, hr]

/-- Witness for C9's tier-write clause at a concrete cache state with a
present Redis tier. -/
theorem c9_witness :
    (List.lookup "k" (cacheSet (⟨some [], []⟩ : CacheState ℕ) "k" 7 "news" 50).memory =
      some (7, 50 + (ttlFor "news" : ℤ))) ∧
    (cacheSet (⟨some [], []⟩ : CacheState ℕ) "k" 7 "news" 50).redis =
      some (insertAL [] "k" (7, ttlFor "news")) :=
  ⟨(c9_ttl_table_and_dual_tier_set.2.2.2.2.2 ℕ ⟨some [], []⟩ "k" 7 "news" 50).1,
   (c9_ttl_table_and_dual_tier_set.2.2.2.2.2 ℕ ⟨some [], []⟩ "k" 7 "news" 50).2 [] rfl⟩

/- ### C1 — the 5-failure deactivation does not happen in the code -/

/-- The metadata row of a symbol that has already failed four times in a
row and is still active. -/
def c1meta : DataCollectionMetadata :=
  { ticker := "AAPL", consecutive_failures := 4 }

/-- **C1.** The claim says a failed acquisition that brings
`consecutive_failures` to 5 flips `active` to false and excludes the symbol
from the next scheduled sweep.  Evaluating the code at that exact input
refutes this: `_update_metadata` on the fifth consecutive failure leaves
`is_active` true, the symbol is still selected by the sweep's
`filter_by(is_active=True)` query, and even the scheduler's
exception-handler condition (`consecutive_failures > 5` — despite its own
log message "Deactivating … after 5 consecutive failures") does not hold at
5; moreover that handler only runs when `get_historical_data` raises, which
it never does. -/
theorem c1_fifth_failure_does_not_deactivate :
    ((_update_metadata [c1meta] "AAPL" false (some "No data from any source") 1000 []).map
      (fun m => (m.consecutive_failures, m.is_active)) = [(5, true)]) ∧
    (sweepActiveRows (_update_metadata [c1meta] "AAPL" false
      (some "No data from any source") 1000 [])).length = 1 ∧
    ((_update_metadata [c1meta] "AAPL" false (some "No data from any source") 1000 []).all
      (fun m => !sweepDeactivates m)) = true := by
  decide

/- ### C5 — freshness thresholds; the market-hours window boundary -/

/-- Metadata for the C5 instances: last success at epoch second 0. -/
def c5meta : DataCollectionMetadata :=
  { ticker := "AAPL", last_successful_collection := some 0 }

/-- Monday 21:30 UTC, 45 minutes after the last success. -/
def c5now : Instant :=
  { epochSec := 2700, today := 100, weekday := 0, hour := 21, minute := 30 }

/-- Counterexample to **C5** as stated: at Monday 21:30 UTC with a data age
of 45 minutes and a 3-day range, the claim's thresholds (market hours
literally UTC 14:00–21:00, so 21:30 is outside and the 60-minute limit
applies) call the data fresh, but the code (`14 <= hour <= 21`, so 21:30 is
inside market hours and the 30-minute limit applies) does not. -/
theorem c5_counterexample :
    claim_is_fresh [c5meta] "AAPL" 0 3 c5now = true ∧
    _is_data_fresh [c5meta] "AAPL" 0 3 c5now = false := by
  decide

/-- `_is_market_hours` as a single decidable proposition. -/
theorem market_hours_eq (now : Instant) :
    _is_market_hours now =
      decide (now.weekday ≤ 4 ∧ 14 ≤ now.hour ∧ now.hour ≤ 21) := by
  unfold _is_market_hours
  by_cases h : now.weekday > 4
  · rw [if_pos h]
    symm
    simp only [decide_eq_false_iff_not]
    omega
  · rw [if_neg h]
    simp only [decide_eq_decide]
    omega

/-- **C5 (amended).** `_is_data_fresh` applies the thresholds: for a range
of at most 5 days the age limit is 30 minutes during market hours — Mon–Fri
with the UTC hour field between 14 and 21 inclusive, i.e. 14:00–21:59 — and
60 minutes otherwise; for a range of at most 30 days, 24 hours; for a wider
range, 7 days; absent or never-successful metadata is never fresh.
Concretely, with an age of 2 hours a 3-day range is not fresh and a 10-day
range is fresh. -/
theorem c5_fresh_thresholds_amended :
    (∀ (metas : List DataCollectionMetadata) (ticker : String)
       (start_date end_date : ℤ) (now : Instant),
       _is_data_fresh metas ticker start_date end_date now =
         amended_is_fresh metas ticker start_date end_date now) ∧
    _is_data_fresh [c5meta] "AAPL" 0 3
      { epochSec := 7200, today := 100, weekday := 0, hour := 10, minute := 0 } = false ∧
    _is_data_fresh [c5meta] "AAPL" 0 10
      { epochSec := 7200, today := 100, weekday := 0, hour := 10, minute := 0 } = true := by
  refine ⟨fun metas ticker start_date end_date now => ?_, by decide, by decide⟩
  unfold _is_data_fresh amended_is_fresh
  cases metas.find? (fun m => m.ticker == ticker) with
  | none => rfl
  | some metadata =>
    dsimp only
    cases metadata.last_successful_collection with
    | none => rfl
    | some t =>
      rw [show _is_market_hours now =
            decide (now.weekday ≤ 4 ∧ 14 ≤ now.hour ∧ now.hour ≤ 21) from
          market_hours_eq now]
      simp only [freshThreshold]
      by_cases h5 : end_date - start_date ≤ 5 <;>
      by_cases hmh : now.weekday ≤ 4 ∧ 14 ≤ now.hour ∧ now.hour ≤ 21 <;>
      by_cases h30 : end_date - start_date ≤ 30 <;>
      simp [h5, hmh, h30, decide_eq_decide] <;>
      omega

/- ### C7 — fixed provider order, first success wins, tagged provenance -/

/-- **C7.** The acquisition orchestrator's selection chain tries the
statically ordered provider list — Twelve Data, then Alpha Vantage, then
the fallback service — stops at the first provider that returns data and
tags the result with that provider's source name, and continues past any
provider failure: it coincides with the spec-side first-success recursion
over the ordered list.  In particular, with provider A (Twelve Data)
failing and provider B (Alpha Vantage) succeeding, the result is B's data
tagged `alpha_vantage`. -/
theorem c7_provider_cascade_first_success :
    (∀ f1 f2 f3 : Option (List PricePoint),
      collectSelect f1 f2 f3 =
        specFirstProvider [(f1, "twelve_data"), (f2, "alpha_vantage"), (f3, "fallback")]) ∧
    (∀ (f3 : Option (List PricePoint)) (l : List PricePoint), l ≠ [] →
      collectSelect none (some l) f3 = some (l, "alpha_vantage")) := by
  constructor
  · intro f1 f2 f3
    cases f1 with
    | some l1 =>
      by_cases h1 : l1.isEmpty <;>
        simp [collectSelect, collectSelect2, collectSelect3, specFirstProvider, h1] <;>
        cases f2 <;> cases f3 <;>
        simp [collectSelect2, collectSelect3, specFirstProvider]
    | none =>
      cases f2 <;> cases f3 <;>
        simp [collectSelect, collectSelect2, collectSelect3, specFirstProvider]
  · intro f3 l hl
    simp [collectSelect, collectSelect2, List.isEmpty_iff, hl]

/-- A concrete data point for the witnesses. -/
def onePoint : PricePoint :=
  { date := 10, «open» := some 1, high := some 2, low := some 1,
    close := some 2, volume := some 100 }

/-- Witness for C7: Twelve Data failing and Alpha Vantage succeeding on a
concrete one-point batch yields Alpha Vantage's data tagged
`alpha_vantage`. -/
theorem c7_witness :
    collectSelect none (some [onePoint]) none = some ([onePoint], "alpha_vantage") :=
  c7_provider_cascade_first_success.2 none [onePoint] (by simp)

/- ### C2 — quote/historical estimation-fallback asymmetry -/

/-- **C2.** With every real provider failing, a quote request through
`FallbackDataService.get_stock_quote` returns a hard failure (`None`, no
estimation fallback), while a historical-series request through
`FallbackDataService.get_historical_data` under the same conditions
returns the estimation provider's result tagged `source='AI_FALLBACK'`. -/
theorem c2_quote_hard_failure_historical_ai_fallback
    (qTD qFH qAV : Option Quote) (keyTD keyAV keyFH : Bool)
    (oTD oAV : Option HistResp) (ai : Option (List PricePoint))
    (ticker : String) (outputsize : ℕ) (l : List PricePoint)
    (hqTD : qTD = none) (hqFH : qFH = none) (hqAV : qAV = none)
    (hTD : keyTD = false ∨ oTD = none) (hAV : keyAV = false ∨ oAV = none)
    (hai : ai = some l) (hl : l ≠ []) :
    fallback_get_stock_quote qTD qFH qAV = none ∧
    fallback_get_historical_data keyTD keyAV keyFH oTD oAV ai ticker outputsize =
      some { ticker := pyUpper ticker, data := l, source := "AI_FALLBACK" } := by
  subst hqTD hqFH hqAV hai
  constructor
  · rfl
  · have eTD : (if keyTD then oTD else none) = none := by
      rcases hTD with h | h <;> simp [h]
    have eAV : (if keyAV then oAV else none) = none := by
      rcases hAV with h | h <;> simp [h]
    simp [fallback_get_historical_data, eTD, eAV, List.isEmpty_iff, hl]

/-- Witness for C2 with all provider oracles failing concretely and the
estimation provider returning one point. -/
theorem c2_witness :
    fallback_get_stock_quote none none none = none ∧
    fallback_get_historical_data false false false none none (some [onePoint]) "aapl" 30 =
      some { ticker := "AAPL", data := [onePoint], source := "AI_FALLBACK" } := by
  have h := c2_quote_hard_failure_historical_ai_fallback none none none false false false
    none none (some [onePoint]) "aapl" 30 [onePoint] rfl rfl rfl (Or.inl rfl)
    (Or.inl rfl) rfl (by simp)
  exact ⟨h.1, h.2.trans (by decide)⟩

/- ### C6 — 500-point batch cap; which 500 points survive -/

/-- The cap always equals `data.take 500` (Python `data[:500]`). -/
theorem cappedOf_eq_take (data : List PricePoint) : cappedOf data = data.take 500 := by
  unfold cappedOf
  split
  · rfl
  · next h => exact (List.take_all_of_le (by omega)).symm

/-- A point of the C6 batch: date `i`, ascending chronological order as the
providers deliver it. -/
def c6point (i : ℕ) : PricePoint :=
  { date := (i : ℤ), «open» := none, high := none, low := none,
    close := some 1, volume := none }

/-- A 501-point batch in chronological (ascending-date) order, as both
Twelve Data and Alpha Vantage produce it (both adapters explicitly sort or
reverse into chronological order). -/
def c6batch : List PricePoint := (List.range 501).map c6point

/-- Storing a batch with duplicate-free dates into an empty table inserts
exactly the first 500 points as rows. -/
theorem store_data_empty (t s : String) (data : List PricePoint)
    (h : data.isEmpty = false)
    (hnd : ((data.take 500).map (fun p => p.date)).Nodup) :
    (_store_data t data s []).1 = (data.take 500).map (mkRow t s) := by
  simp only [_store_data, h, Bool.false_eq_true, if_false, cappedOf_eq_take,
    List.filter_nil, List.map_nil]
  have hfe : List.filter (fun p => !(([] : List ℤ)).contains p.date) (data.take 500) =
      data.take 500 := List.filter_eq_self.mpr (fun a _ => rfl)
  rw [hfe, if_pos hnd]
  rfl

/-- The first 500 points of the C6 batch are the points of dates 0–499. -/
theorem c6batch_take : c6batch.take 500 = (List.range 500).map c6point := by
  rw [c6batch, ← List.map_take, List.take_range]
  norm_num

/-- The dates staged from the C6 batch are duplicate-free. -/
theorem c6batch_nodup : ((c6batch.take 500).map (fun p => p.date)).Nodup := by
  rw [c6batch_take, List.map_map]
  have he : (fun p => p.date) ∘ c6point = fun i : ℕ => (i : ℤ) := rfl
  rw [he]
  exact List.Nodup.map (l := List.range 500) (f := fun i : ℕ => (i : ℤ))
    (fun a b hab => by simpa using hab) (List.nodup_range 500)

/-- Counterexample to **C6** as stated: a 501-point chronologically
ascending batch stored into an empty table keeps the *first* 500 points —
the oldest ones.  The newest date (500) is in the batch but absent from the
stored rows, while the claim says the batch is truncated to the most recent
500 points. -/
theorem c6_counterexample :
    (_store_data "X" c6batch "src" []).1.length = 500 ∧
    (500 : ℤ) ∉ (_store_data "X" c6batch "src" []).1.map (fun r => r.date) ∧
    (500 : ℤ) ∈ c6batch.map (fun p => p.date) := by
  have hkey : (_store_data "X" c6batch "src" []).1 =
      ((List.range 500).map c6point).map (mkRow "X" "src") := by
    have hne : c6batch.isEmpty = false := by
      have h0 : c6batch.length = 501 := by rw [c6batch, List.length_map, List.length_range]
      cases hc : c6batch with
      | nil => rw [hc] at h0; simp at h0
      | cons a l => rfl
    rw [store_data_empty "X" "src" c6batch hne c6batch_nodup, c6batch_take]
  refine ⟨?_, ?_, ?_⟩
  · rw [hkey, List.length_map, List.length_map, List.length_range]
  · rw [hkey]
    simp only [List.map_map, List.mem_map, List.mem_range]
    rintro ⟨i, hi, he⟩
    have : (i : ℤ) = 500 := he
    omega
  · rw [c6batch]
    simp only [List.map_map, List.mem_map, List.mem_range]
    exact ⟨500, by omega, rfl⟩

/-- **C6 (amended).** For every incoming batch, `_store_data` persists at
most 500 new rows per call (the stored table grows by at most 500 rows),
and a batch longer than 500 points is truncated to the *first* 500 points
of the batch before storage — with providers delivering chronological
ascending order these are the oldest 500, not the most recent 500. -/
theorem c6_batch_cap_first_500 (ticker source : String)
    (data : List PricePoint) (db : List HistoricalPrice) :
    (_store_data ticker data source db).1.length ≤ db.length + 500 ∧
    _store_data ticker data source db =
      _store_data ticker (data.take 500) source db := by
  have hnp : ∀ q : PricePoint → Bool, ((data.take 500).filter q).length ≤ 500 :=
    fun q => le_trans (List.length_filter_le _ _) (List.length_take_le _ _)
  constructor
  · simp only [_store_data]
    split
    · simpa using Nat.le_add_right db.length 500
    · rw [cappedOf_eq_take]
      split
      · simp only [List.length_append, List.length_map]
        exact Nat.add_le_add_left (hnp _) _
      · simpa using Nat.le_add_right db.length 500
  · by_cases hE : data.isEmpty
    · have hnil : data = [] := by simpa [List.isEmpty_iff] using hE
      subst hnil
      rfl
    · have hEf : data.isEmpty = false := by simpa using hE
      have hEf' : (data.take 500).isEmpty = false := by
        rcases data with _ | ⟨a, l⟩
        · simp at hEf
        · rfl
      simp only [_store_data, hEf, hEf', Bool.false_eq_true, if_false]
      rw [cappedOf_eq_take, cappedOf_eq_take, List.take_take]
      norm_num

/- ### C8 — idempotent upsert -/

attribute [ext] HistoricalPrice

/-- `orElse` of an option with itself is the option. -/
theorem orElse_self {γ : Type} (o : Option γ) : o.orElse (fun _ => o) = o := by
  cases o <;> rfl

/-- `applyPoint` does not change the row's date. -/
theorem applyPoint_date (source : String) (p : PricePoint) (r : HistoricalPrice) :
    (applyPoint source p r).date = r.date := rfl

/-- `applyPoint` does not change the row's ticker. -/
theorem applyPoint_ticker (source : String) (p : PricePoint) (r : HistoricalPrice) :
    (applyPoint source p r).ticker = r.ticker := rfl

/-- `updRow` does not change the row's date. -/
theorem updRow_date (source : String) (ps : List PricePoint) :
    ∀ r, (updRow source ps r).date = r.date := by
  induction ps with
  | nil => intro r; rfl
  | cons p tl ih =>
    intro r
    show (updRow source tl (if p.date = r.date then applyPoint source p r else r)).date = r.date
    rw [ih]
    split <;> rfl

/-- `updRow` does not change the row's ticker. -/
theorem updRow_ticker (source : String) (ps : List PricePoint) :
    ∀ r, (updRow source ps r).ticker = r.ticker := by
  induction ps with
  | nil => intro r; rfl
  | cons p tl ih =>
    intro r
    show (updRow source tl (if p.date = r.date then applyPoint source p r else r)).ticker = r.ticker
    rw [ih]
    split <;> rfl

/-- A fold whose every step fixes the accumulator returns the accumulator. -/
theorem foldl_fixed {α β : Type} (f : α → β → α) (x : α) :
    ∀ l : List β, (∀ b ∈ l, f x b = x) → l.foldl f x = x := by
  intro l
  induction l with
  | nil => intro _; rfl
  | cons b tl ih =>
    intro h
    show tl.foldl f (f x b) = x
    rw [h b (List.mem_cons_self b tl)]
    exact ih (fun b' hb' => h b' (List.mem_cons_of_mem _ hb'))

/-- A fold whose every step is a constant function or the identity is
idempotent. -/
theorem foldl_const_or_id_idem {α β : Type} (s : β → α → α) :
    ∀ (l : List β),
      (∀ b ∈ l, (∀ x y, s b x = s b y) ∨ (∀ x, s b x = x)) →
      ∀ x0, l.foldl (fun x b => s b x) (l.foldl (fun x b => s b x) x0) =
        l.foldl (fun x b => s b x) x0 := by
  intro l
  induction l using List.reverseRecOn with
  | nil => intro _ x0; rfl
  | append_singleton l b ih =>
    intro h x0
    simp only [List.foldl_append, List.foldl_cons, List.foldl_nil]
    rcases h b (by simp) with hc | hid
    · exact hc _ _
    · rw [hid, hid]
      exact ih (fun b' hb' => h b' (by simp [hb'])) x0

/-- The effect of `updRow` on a single row component, as a fold over the
batch guarded by the row's date. -/
theorem updRow_field {γ : Type} (source : String) (F : HistoricalPrice → γ)
    (G : PricePoint → γ → γ)
    (hF : ∀ p r, F (applyPoint source p r) = G p (F r)) :
    ∀ (ps : List PricePoint) (r : HistoricalPrice),
      F (updRow source ps r) =
        ps.foldl (fun x p => if p.date = r.date then G p x else x) (F r) := by
  intro ps
  induction ps with
  | nil => intro r; rfl
  | cons p tl ih =>
    intro r
    show F (updRow source tl (if p.date = r.date then applyPoint source p r else r)) = _
    by_cases hd : p.date = r.date
    · rw [if_pos hd, ih, applyPoint_date, hF]
      simp only [List.foldl_cons, if_pos hd]
    · rw [if_neg hd, ih]
      simp only [List.foldl_cons, if_neg hd]

/-- Re-applying the same batch to a row it has already updated changes
nothing: each per-field step is a constant function or the identity. -/
theorem updRow_idem (source : String) (ps : List PricePoint) (r : HistoricalPrice) :
    updRow source ps (updRow source ps r) = updRow source ps r := by
  have key : ∀ {γ : Type} (F : HistoricalPrice → γ) (G : PricePoint → γ → γ),
      (∀ p r, F (applyPoint source p r) = G p (F r)) →
      (∀ p, (∀ x y, G p x = G p y) ∨ (∀ x, G p x = x)) →
      F (updRow source ps (updRow source ps r)) = F (updRow source ps r) := by
    intro γ F G hF hG
    rw [updRow_field source F G hF, updRow_date,
      updRow_field source F G hF]
    apply foldl_const_or_id_idem
    intro p _
    by_cases hd : p.date = r.date
    · rcases hG p with hc | hid
      · exact Or.inl (fun x y => by simp only [if_pos hd]; exact hc x y)
      · exact Or.inr (fun x => by simp only [if_pos hd]; exact hid x)
    · exact Or.inr (fun x => by simp only [if_neg hd])
  have horelse : ∀ (g : PricePoint → Option ℚ) (p : PricePoint),
      (∀ x y : Option ℚ, (g p).orElse (fun _ => x) = (g p).orElse (fun _ => y)) ∨
      (∀ x : Option ℚ, (g p).orElse (fun _ => x) = x) := by
    intro g p
    cases hp : g p with
    | some v => exact Or.inl (fun x y => rfl)
    | none => exact Or.inr (fun x => rfl)
  refine HistoricalPrice.ext ?_ ?_ ?_ ?_ ?_ ?_ ?_ ?_
  · rw [updRow_ticker, updRow_ticker]
  · rw [updRow_date, updRow_date]
  · exact key (fun r => r.«open») (fun p x => p.«open».orElse (fun _ => x))
      (fun p r => rfl) (horelse (fun p => p.«open»))
  · exact key (fun r => r.high) (fun p x => p.high.orElse (fun _ => x))
      (fun p r => rfl) (horelse (fun p => p.high))
  · exact key (fun r => r.low) (fun p x => p.low.orElse (fun _ => x))
      (fun p r => rfl) (horelse (fun p => p.low))
  · exact key (fun r => r.close) (fun p x => p.close.orElse (fun _ => x))
      (fun p r => rfl) (horelse (fun p => p.close))
  · have hvol : ∀ p : PricePoint,
        (∀ x y : Option ℤ, p.volume.orElse (fun _ => x) = p.volume.orElse (fun _ => y)) ∨
        (∀ x : Option ℤ, p.volume.orElse (fun _ => x) = x) := by
      intro p
      cases hp : p.volume with
      | some v => exact Or.inl (fun x y => rfl)
      | none => exact Or.inr (fun x => rfl)
    exact key (fun r => r.volume) (fun p x => p.volume.orElse (fun _ => x))
      (fun p r => rfl) hvol
  · exact key (fun r => r.source) (fun p _ => source)
      (fun p r => rfl) (fun p => Or.inl (fun x y => rfl))

/-- Applying a point to the very row staged from it changes nothing. -/
theorem applyPoint_mkRow (t src : String) (p : PricePoint) :
    applyPoint src p (mkRow t src p) = mkRow t src p := by
  refine HistoricalPrice.ext rfl rfl ?_ ?_ ?_ ?_ ?_ rfl <;>
    exact orElse_self _

/-- Re-applying the batch to a row freshly inserted from it changes
nothing, provided the staged inserts' dates are duplicate-free (the
condition under which `_store_data` commits). -/
theorem updRow_mkRow (t src : String) (capped : List PricePoint) (E : List ℤ)
    (p : PricePoint)
    (hp : p ∈ capped.filter (fun q => !E.contains q.date))
    (hnd : ((capped.filter (fun q => !E.contains q.date)).map (fun q => q.date)).Nodup) :
    updRow src capped (mkRow t src p) = mkRow t src p := by
  apply foldl_fixed
  intro q hq
  by_cases hd : q.date = (mkRow t src p).date
  · have hdp : q.date = p.date := hd
    have hpF := List.mem_filter.mp hp
    have hqNP : q ∈ capped.filter (fun q => !E.contains q.date) :=
      List.mem_filter.mpr ⟨hq, by rw [hdp]; exact hpF.2⟩
    have hqp : q = p :=
      List.inj_on_of_nodup_map hnd hqNP hp hdp
    rw [if_pos hd, hqp, applyPoint_mkRow]
  · rw [if_neg hd]

/-- The per-row update of `_store_data` preserves the set (and order) of the
ticker's stored dates. -/
theorem filter_dates_map_upd (t src : String) (capped : List PricePoint) :
    ∀ db : List HistoricalPrice,
      ((db.map (fun r => if r.ticker = t then updRow src capped r else r)).filter
          (fun r => r.ticker == t)).map (fun r => r.date) =
        ((db.filter (fun r => r.ticker == t)).map (fun r => r.date)) := by
  intro db
  induction db with
  | nil => rfl
  | cons r tl ih =>
    simp only [List.map_cons, List.filter_cons]
    by_cases ht : r.ticker = t
    · rw [if_pos ht]
      have h1 : ((updRow src capped r).ticker == t) = (r.ticker == t) := by
        rw [updRow_ticker]
      rw [h1, beq_iff_eq.mpr ht]
      simp only [if_true, List.map_cons, updRow_date, ih]
    · rw [if_neg ht, beq_eq_false_iff_ne.mpr ht]
      simpa using ih

/-- Rows staged by `mkRow` carry the target ticker, so the ticker filter
keeps them all. -/
theorem filter_mkRows (t src : String) (NP : List PricePoint) :
    (NP.map (mkRow t src)).filter (fun r => r.ticker == t) = NP.map (mkRow t src) := by
  refine List.filter_eq_self.mpr ?_
  intro r hr
  obtain ⟨p, hp, rfl⟩ := List.mem_map.mp hr
  simp [mkRow]

/-- **C8.** Applying the same fetched batch to the store twice yields the
same table (hence the same row count and record content) and the same
success flag as applying it once: the second application updates the
existing `(ticker, date)` rows in place and inserts no duplicates.  This
covers every case of `_store_data`, including the rejected empty batch and
the `IntegrityError` rollback on intra-batch duplicate dates (where both
applications leave the table untouched). -/
theorem c8_idempotent_upsert (ticker : String) (data : List PricePoint)
    (source : String) (db : List HistoricalPrice) :
    _store_data ticker data source (_store_data ticker data source db).1 =
      _store_data ticker data source db := by
  by_cases hE : data.isEmpty
  · simp [_store_data, hE]
  · have hEf : data.isEmpty = false := by simpa using hE
    simp only [_store_data, hEf, Bool.false_eq_true, if_false]
    split
    next hnd =>
      dsimp only
      have hE2 : (((db.map (fun r => if r.ticker = ticker then updRow source (cappedOf data) r else r) ++
            ((cappedOf data).filter (fun p =>
              !((db.filter (fun r => r.ticker == ticker)).map (fun r => r.date)).contains p.date)).map
              (mkRow ticker source)).filter (fun r => r.ticker == ticker)).map (fun r => r.date)) =
          ((db.filter (fun r => r.ticker == ticker)).map (fun r => r.date)) ++
            ((cappedOf data).filter (fun p =>
              !((db.filter (fun r => r.ticker == ticker)).map (fun r => r.date)).contains p.date)).map
              (fun p => p.date) := by
        rw [List.filter_append, List.map_append, filter_dates_map_upd, filter_mkRows,
          List.map_map]
        rfl
      rw [hE2]
      have hNP2 : ((cappedOf data).filter (fun p =>
          !(((db.filter (fun r => r.ticker == ticker)).map (fun r => r.date)) ++
            ((cappedOf data).filter (fun p =>
              !((db.filter (fun r => r.ticker == ticker)).map (fun r => r.date)).contains p.date)).map
              (fun p => p.date)).contains p.date)) = [] := by
        refine List.filter_eq_nil.mpr ?_
        intro p hp
        have hmem : p.date ∈
            ((db.filter (fun r => r.ticker == ticker)).map (fun r => r.date)) ++
              ((cappedOf data).filter (fun p =>
                !((db.filter (fun r => r.ticker == ticker)).map (fun r => r.date)).contains p.date)).map
                (fun p => p.date) := by
          by_cases hm : p.date ∈ (db.filter (fun r => r.ticker == ticker)).map (fun r => r.date)
          · exact List.mem_append_left _ hm
          · refine List.mem_append_right _ ?_
            refine List.mem_map.mpr ⟨p, List.mem_filter.mpr ⟨hp, ?_⟩, rfl⟩
            simp only [Bool.not_eq_true', ← Bool.not_eq_true, List.elem_iff]
            exact hm
        simp only [List.elem_eq_true_of_mem hmem, Bool.not_true, Bool.false_eq_true,
          not_false_eq_true]
      rw [hNP2]
      simp only [List.map_nil, List.nodup_nil, if_true, List.append_nil]
      refine Prod.ext ?_ rfl
      dsimp only
      rw [List.map_append]
      congr 1
      · rw [List.map_map]
        refine List.map_congr_left ?_
        intro r _
        simp only [Function.comp_apply]
        by_cases ht : r.ticker = ticker
        · rw [if_pos ht, if_pos (by rw [updRow_ticker]; exact ht)]
          exact updRow_idem source (cappedOf data) r
        · rw [if_neg ht, if_neg ht]
      · rw [List.map_map]
        refine List.map_congr_left ?_
        intro p hp
        simp only [Function.comp_apply]
        rw [if_pos (by simp [mkRow])]
        exact updRow_mkRow ticker source (cappedOf data) _ p hp hnd
    next hnd =>
      dsimp only

/-- Sanity instance: inserting a two-point batch into an empty table stores
two rows, and a batch carrying the same date twice trips the unique
constraint and stores nothing. -/
example :
    ((_store_data "X" [onePoint, { onePoint with date := 11 }] "s" []).1.length = 2) ∧
    (_store_data "X" [onePoint, { onePoint with close := some 3 }] "s" [] =
      ([], false)) := by
  constructor <;> decide

/- ### C3 — the Store API never raises; degradation ladder on failure -/

/-- When the provider selection chain produces nothing, `_collect_and_store`
leaves the price table untouched, records the failure in the metadata, and
reports no success. -/
theorem collect_and_store_fail (oTD oAV oFB : Option (List PricePoint))
    (ticker : String) (db : List HistoricalPrice)
    (metas : List DataCollectionMetadata) (now : ℤ)
    (h : collectSelect (_fetch_from_twelve_data oTD) (_fetch_from_alpha_vantage oAV)
      (_fetch_from_fallback oFB) = none) :
    _collect_and_store oTD oAV oFB ticker db metas now =
      (db, _update_metadata metas ticker false (some "No data from any source") now db,
        false) := by
  simp only [_collect_and_store, h]

/-- On total acquisition failure the fetch path collapses to the
degradation tail over the unchanged table. -/
theorem fetchPath_fail (db : List HistoricalPrice)
    (metas : List DataCollectionMetadata)
    (oTD oAV oFB : Option (List PricePoint)) (T period : String)
    (start_date end_date : ℤ) (now : Instant)
    (h : collectSelect (_fetch_from_twelve_data oTD) (_fetch_from_alpha_vantage oAV)
      (_fetch_from_fallback oFB) = none) :
    histFetchPath db metas oTD oAV oFB T period start_date end_date now =
      histStaleTail db
        (_update_metadata metas T false (some "No data from any source") now.epochSec db)
        T period start_date end_date := by
  simp only [histFetchPath, collect_and_store_fail oTD oAV oFB T db metas now.epochSec h,
    Bool.false_eq_true, if_false]

/-- The degradation tail always reports the acquisition attempt and follows
the stale/any/none ladder. -/
theorem staleTail_ladder (db : List HistoricalPrice)
    (metas' : List DataCollectionMetadata) (T period : String)
    (start_date end_date : ℤ) :
    (histStaleTail db metas' T period start_date end_date).collect_ran = true ∧
    (if (_get_from_database db T start_date end_date).isEmpty = false then
      (histStaleTail db metas' T period start_date end_date).result.source = "stale_cache" ∧
      (histStaleTail db metas' T period start_date end_date).result.data =
        _get_from_database db T start_date end_date
    else if (_get_any_available_data db T).isEmpty = false then
      (histStaleTail db metas' T period start_date end_date).result.source = "any_cache" ∧
      (histStaleTail db metas' T period start_date end_date).result.data =
        _get_any_available_data db T ∧
      (histStaleTail db metas' T period start_date end_date).result.warning =
        some "Data is from a different time period due to API limitations"
    else
      (histStaleTail db metas' T period start_date end_date).result.source = "none" ∧
      (histStaleTail db metas' T period start_date end_date).result.data = [] ∧
      (histStaleTail db metas' T period start_date end_date).result.error =
        some "No historical data available") := by
  by_cases h1 : (_get_from_database db T start_date end_date).isEmpty
  · by_cases h2 : (_get_any_available_data db T).isEmpty
    · simp [histStaleTail, h1, h2]
    · have h2f : (_get_any_available_data db T).isEmpty = false := by simpa using h2
      simp [histStaleTail, h1, h2f]
  · have h1f : (_get_from_database db T start_date end_date).isEmpty = false := by
      simpa using h1
    simp [histStaleTail, h1f]

/-- The fetch path only produces acquisition or degradation tags. -/
theorem fetchPath_source_mem (db : List HistoricalPrice)
    (metas : List DataCollectionMetadata)
    (oTD oAV oFB : Option (List PricePoint)) (T period : String)
    (start_date end_date : ℤ) (now : Instant) :
    (histFetchPath db metas oTD oAV oFB T period start_date end_date now).result.source ∈
      ["freshly_fetched", "stale_cache", "any_cache", "none"] := by
  simp only [histFetchPath, histStaleTail]
  split_ifs <;> simp

/-- **C3.** For every input, `get_historical_data` never raises to its
caller: it is a total function whose every execution path terminates in a
structured result carrying a source tag (the source's top-level
`try/except` additionally converts unexpected exceptions into a structured
`source='error'` result).  On total acquisition failure (the provider
selection chain yields nothing) it returns the in-range records tagged
`source='stale_cache'`, else any stored records for the symbol tagged
`source='any_cache'` with an explicit warning, else an empty result with
`source='none'` and an error. -/
theorem c3_never_raises_degradation_ladder (db : List HistoricalPrice)
    (metas : List DataCollectionMetadata)
    (oTD oAV oFB : Option (List PricePoint)) (ticker period : String)
    (force_update : Bool) (now : Instant) :
    (get_historical_data db metas oTD oAV oFB ticker period force_update now).result.source ∈
      ["local_cache", "freshly_fetched", "stale_cache", "any_cache", "none"] ∧
    (collectSelect (_fetch_from_twelve_data oTD) (_fetch_from_alpha_vantage oAV)
        (_fetch_from_fallback oFB) = none →
      (get_historical_data db metas oTD oAV oFB ticker period force_update now).collect_ran = true →
      (if (_get_from_database db (pyUpper ticker)
            (_calculate_start_date period now.today) now.today).isEmpty = false then
        (get_historical_data db metas oTD oAV oFB ticker period force_update now).result.source =
            "stale_cache" ∧
        (get_historical_data db metas oTD oAV oFB ticker period force_update now).result.data =
          _get_from_database db (pyUpper ticker)
            (_calculate_start_date period now.today) now.today
      else if (_get_any_available_data db (pyUpper ticker)).isEmpty = false then
        (get_historical_data db metas oTD oAV oFB ticker period force_update now).result.source =
            "any_cache" ∧
        (get_historical_data db metas oTD oAV oFB ticker period force_update now).result.data =
          _get_any_available_data db (pyUpper ticker) ∧
        (get_historical_data db metas oTD oAV oFB ticker period force_update now).result.warning =
          some "Data is from a different time period due to API limitations"
      else
        (get_historical_data db metas oTD oAV oFB ticker period force_update now).result.source =
            "none" ∧
        (get_historical_data db metas oTD oAV oFB ticker period force_update now).result.data = [] ∧
        (get_historical_data db metas oTD oAV oFB ticker period force_update now).result.error =
          some "No historical data available")) := by
  have hcases :
      (get_historical_data db metas oTD oAV oFB ticker period force_update now =
        ⟨{ ticker := pyUpper ticker, period := period,
           data := _get_from_database db (pyUpper ticker)
             (_calculate_start_date period now.today) now.today,
           source := "local_cache" }, db, metas, false⟩) ∨
      (get_historical_data db metas oTD oAV oFB ticker period force_update now =
        histFetchPath db metas oTD oAV oFB (pyUpper ticker) period
          (_calculate_start_date period now.today) now.today now) := by
    simp only [get_historical_data]
    split_ifs <;> first | exact Or.inr rfl | exact Or.inl rfl
  constructor
  · rcases hcases with h | h
    · rw [h]
      simp
    · rw [h]
      exact List.mem_cons_of_mem _ (fetchPath_source_mem db metas oTD oAV oFB
        (pyUpper ticker) period (_calculate_start_date period now.today) now.today now)
  · intro hsel hran
    have hfp := fetchPath_fail db metas oTD oAV oFB (pyUpper ticker) period
      (_calculate_start_date period now.today) now.today now hsel
    have hlad := staleTail_ladder db
      (_update_metadata metas (pyUpper ticker) false (some "No data from any source")
        now.epochSec db)
      (pyUpper ticker) period (_calculate_start_date period now.today) now.today
    rcases hcases with h | h
    · rw [h] at hran
      exact absurd hran (by simp)
    · rw [h] at hran ⊢
      rw [hfp]
      exact hlad.2

/-- Witness for C3 at the concrete cold state: empty tables, every provider
failing. -/
theorem c3_witness :
    (get_historical_data [] [] none none none "X" "1mo" false c5now).result.source = "none" ∧
    (get_historical_data [] [] none none none "X" "1mo" false c5now).result.data = [] ∧
    (get_historical_data [] [] none none none "X" "1mo" false c5now).result.error =
      some "No historical data available" := by
  have h := (c3_never_raises_degradation_ladder [] [] none none none "X" "1mo"
    false c5now).2 rfl (by decide)
  rw [if_neg (by decide), if_neg (by decide)] at h
  exact h

/- ### C4 — fresh, sufficiently covered cache hits skip the providers -/

/-- Every entry of the period table is at least one day, and so is the
30-day default. -/
theorem period_days_getD_pos (p : String) :
    (1 : ℤ) ≤ (period_days.lookup p).getD 30 := by
  simp only [period_days, List.lookup]
  repeat' split
  all_goals norm_num

/-- The claim's coverage condition `count / (rangeDays * 0.7) > 0.5` implies
the code's `count / max(rangeDays * 0.7, 1) > 0.5` for ranges of at least
one day. -/
theorem coverage_bridge (n : ℕ) (d : ℤ) (hd : 1 ≤ d)
    (h : (n : ℚ) / ((d : ℚ) * (7 / 10)) > 1 / 2) :
    (n : ℚ) / max ((d : ℚ) * (7 / 10)) 1 > 1 / 2 := by
  rcases le_or_lt 1 ((d : ℚ) * (7 / 10)) with hge | hlt
  · rwa [max_eq_left hge]
  · have hd1 : d = 1 := by
      by_contra hne
      have h2 : (2 : ℤ) ≤ d := by omega
      have h2' : (2 : ℚ) ≤ (d : ℚ) := by exact_mod_cast h2
      nlinarith
    subst hd1
    rw [max_eq_right (le_of_lt hlt), div_one]
    have h7 : (0 : ℚ) < ((1 : ℤ) : ℚ) * (7 / 10) := by norm_num
    rw [gt_iff_lt, lt_div_iff h7] at h
    have hn1 : 1 ≤ n := by
      by_contra hn0
      push_neg at hn0
      have : n = 0 := by omega
      subst this
      norm_num at h
    have : (1 : ℚ) ≤ (n : ℚ) := by exact_mod_cast hn1
    linarith

/-- The coverage condition forces at least one stored row in range. -/
theorem coverage_nonempty (l : List HistoricalPrice) (d : ℤ) (hd : 1 ≤ d)
    (h : (l.length : ℚ) / ((d : ℚ) * (7 / 10)) > 1 / 2) :
    l.isEmpty = false := by
  cases l with
  | nil =>
    exfalso
    have hd' : (1 : ℚ) ≤ (d : ℚ) := by exact_mod_cast hd
    simp only [List.length_nil, Nat.cast_zero, zero_div] at h
    norm_num at h
  | cons a l => rfl

/-- **C4.** A call to `get_historical_data` without `force_update`, for a
state in which the metadata is fresh (`_is_data_fresh`) and the stored
in-range records give `coverage = recordCount / (rangeDays * 0.7) > 0.5`
(the claim's formula; the code's `max(..., 1)` guard coincides on ranges of
at least one day), returns the stored records tagged `source='local_cache'`
and invokes no provider: the tables are unchanged and the acquisition path
never runs. -/
theorem c4_fresh_cache_hit (db : List HistoricalPrice)
    (metas : List DataCollectionMetadata)
    (oTD oAV oFB : Option (List PricePoint)) (ticker period : String)
    (now : Instant)
    (hfresh : _is_data_fresh metas (pyUpper ticker)
      (_calculate_start_date period now.today) now.today now = true)
    (hcov : ((_get_from_database db (pyUpper ticker)
        (_calculate_start_date period now.today) now.today).length : ℚ) /
        (((now.today - _calculate_start_date period now.today : ℤ) : ℚ) * (7 / 10)) >
        1 / 2) :
    get_historical_data db metas oTD oAV oFB ticker period false now =
      ⟨{ ticker := pyUpper ticker, period := period,
         data := _get_from_database db (pyUpper ticker)
           (_calculate_start_date period now.today) now.today,
         source := "local_cache" }, db, metas, false⟩ := by
  have hd : (1 : ℤ) ≤ now.today - _calculate_start_date period now.today := by
    have := period_days_getD_pos period
    unfold _calculate_start_date
    omega
  have hne := coverage_nonempty _ _ hd hcov
  have hcov' := coverage_bridge _ _ hd hcov
  simp only [get_historical_data, Bool.false_eq_true, if_false, hne]
  rw [if_pos ⟨hfresh, hcov'⟩]

/-- The spec's fresh-cache-hit scenario clock: `lastSuccessAt` will be 10
minutes (600 s) before this reading. -/
def c4now : Instant :=
  { epochSec := 1700000000, today := 20000, weekday := 2, hour := 10, minute := 0 }

/-- AAPL metadata whose last success is 10 minutes old at `c4now`. -/
def c4meta : DataCollectionMetadata :=
  { ticker := "AAPL", last_successful_collection := some 1699999400 }

/-- 40 consecutive days of stored AAPL rows ending today. -/
def c4db : List HistoricalPrice :=
  (List.range 40).map (fun i =>
    { ticker := "AAPL", date := (20000 : ℤ) - i, «open» := none, high := none,
      low := none, close := some 100, volume := none, source := "twelve_data" })

/-- Witness for C4: the spec scenario — 40 days of AAPL data,
`lastSuccessAt` 10 minutes old, period `1mo` — yields `source=local_cache`
with the stored rows and no provider call. -/
theorem c4_witness :
    get_historical_data c4db [c4meta] none none none "AAPL" "1mo" false c4now =
      ⟨{ ticker := pyUpper "AAPL", period := "1mo",
         data := _get_from_database c4db (pyUpper "AAPL")
           (_calculate_start_date "1mo" c4now.today) c4now.today,
         source := "local_cache" }, c4db, [c4meta], false⟩ := by
  refine c4_fresh_cache_hit c4db [c4meta] none none none "AAPL" "1mo" c4now
    (by decide) ?_
  have hlen : (_get_from_database c4db (pyUpper "AAPL")
      (_calculate_start_date "1mo" c4now.today) c4now.today).length = 31 := by decide
  have hdays : (c4now.today - _calculate_start_date "1mo" c4now.today : ℤ) = 30 := by decide
  rw [hlen, hdays]
  norm_num
